import Mathlib

/-!
# pic12f683motoresc: pulse capture and direction decision

A shallow embedding of `main.c`.  The special-function-register bits and the
two program globals the C text reads or writes are the fields of `State`; each
C function is a function `State → State`.  Single bits are `Bool`, byte
registers and `unsigned char` objects are `Nat` reduced `% 256` where the C
text stores into them.

Hardware is the environment: it sets `GPIF` and `T0IF`, drives the input pin
`GPIO4` and counts `TMR0`.  It is modelled by `present` (the values the
hardware shows at an interrupt) and `advanceTMR0` (the free-running counter).
The context save and the `GIE` handling the compiler wraps around an
`interrupt` function are not part of the C text and are not modelled.

Pulse durations are rational numbers of microseconds; `capturedCount` turns a
duration into the timer count, with the tick period the comments of `main.c`
document (8 MHz / 4 / 16).
-/

namespace MotorEsc

/-! ## Data model -/

/-- The C type `DIR_STATE`.  A C enum object is an integer object, so it is a
number here; the three enumerators follow. -/
abbrev DIR_STATE := Nat

/-- Enumerator `DIR_ZERO = 0`. -/
def DIR_ZERO : DIR_STATE := 0

/-- Enumerator `DIR_CW = 1`. -/
def DIR_CW : DIR_STATE := 1

/-- Enumerator `DIR_CCW = 2`. -/
def DIR_CCW : DIR_STATE := 2

/-- The constant `#define ZERO_MID 191`. -/
def ZERO_MID : Nat := 191

/-- The value of `#define ZERO_LOW ZERO_MID - 2` where `isr` uses it: the text
`bitTime < ZERO_LOW` expands to `bitTime < ZERO_MID - 2`, and `-` binds tighter
than `<`. -/
def ZERO_LOW : Nat := ZERO_MID - 2

/-- The value of `#define ZERO_HI ZERO_MID + 2` where `isr` uses it: the text
`bitTime > ZERO_HI` expands to `bitTime > ZERO_MID + 2`. -/
def ZERO_HI : Nat := ZERO_MID + 2

/-- The registers and globals of the program. -/
structure State where
  /-- OPTION_REG bits. -/
  T0CS : Bool
  PSA : Bool
  PS2 : Bool
  PS1 : Bool
  PS0 : Bool
  /-- INTCON bits. -/
  GIE : Bool
  PEIE : Bool
  T0IE : Bool
  GPIE : Bool
  T0IF : Bool
  GPIF : Bool
  /-- PIE1 bits. -/
  TMR1IE : Bool
  TMR2IE : Bool
  /-- Byte registers. -/
  IOC : Nat
  WPU : Nat
  ANSEL : Nat
  CMCON0 : Nat
  OSCCON : Nat
  TMR0 : Nat
  /-- TRISIO bits. -/
  TRISIO0 : Bool
  TRISIO2 : Bool
  TRISIO4 : Bool
  TRISIO5 : Bool
  /-- GPIO bits: `PWM_CW` is `GPIO0`, `ENABLE` is `GPIO2`, `SPEED_CMD` is
  `GPIO4`, `PWM_CCW` is `GPIO5`. -/
  GPIO0 : Bool
  GPIO2 : Bool
  GPIO4 : Bool
  GPIO5 : Bool
  /-- The global `DIR_STATE d`. -/
  d : DIR_STATE
  /-- The global `static unsigned char bitTime`. -/
  bitTime : Nat
deriving DecidableEq, Repr

/-- Reading `#define SPEED_CMD GPIO4`. -/
abbrev SPEED_CMD (s : State) : Bool := s.GPIO4

/-- Reading `#define ENABLE GPIO2`. -/
abbrev ENABLE (s : State) : Bool := s.GPIO2

/-- Reading `#define PWM_CW GPIO0`. -/
abbrev PWM_CW (s : State) : Bool := s.GPIO0

/-- Reading `#define PWM_CCW GPIO5`. -/
abbrev PWM_CCW (s : State) : Bool := s.GPIO5

/-- The state the C startup code hands to `main`: the initialisers
`d = DIR_ZERO` and `bitTime = ZERO_MID` applied over whatever the registers
`r` hold at power-on. -/
def startup (r : State) : State :=
  { r with d := DIR_ZERO, bitTime := ZERO_MID }

/-! ## The C functions -/

/-- The function `init_interrupts` (main.c lines 58-79). -/
def init_interrupts (s : State) : State :=
  { s with
    T0CS := false
    PSA := false
    PS2 := false
    PS1 := true
    PS0 := true
    IOC := 0x10
    T0IE := true
    TMR1IE := true
    TMR2IE := true
    PEIE := true
    GPIE := true
    GIE := true }

/-- The function `config_io` (main.c lines 81-95). -/
def config_io (s : State) : State :=
  { s with
    ANSEL := (s.ANSEL &&& 0xF0) % 256
    CMCON0 := (s.CMCON0 ||| 0x07) % 256
    TRISIO0 := false
    TRISIO2 := false
    TRISIO4 := true
    TRISIO5 := false
    WPU := 0x10 }

/-- The interrupt function `isr` (main.c lines 97-133).  The comparisons are
written as the preprocessor leaves them: `bitTime < ZERO_MID - 2` and
`bitTime > ZERO_MID + 2`. -/
def isr (s : State) : State :=
  let s1 :=
    if s.GPIE && s.GPIF then
      let s2 :=
        if SPEED_CMD s then
          { s with TMR0 := 0 }
        else
          let s3 := { s with bitTime := s.TMR0 % 256 }
          if s3.bitTime < ZERO_MID - 2 then
            { s3 with d := DIR_CCW }
          else if s3.bitTime > ZERO_MID + 2 then
            { s3 with d := DIR_CW }
          else
            { s3 with d := DIR_ZERO }
      { s2 with GPIE := false }
    else s
  if s1.T0IE && s1.T0IF then { s1 with T0IF := false } else s1

/-- The statements of `main` before its `for(;;)` (main.c lines 139-144):
`OSCCON |= 0x70; config_io(); init_interrupts(); ENABLE = 1;`. -/
def main_init (s : State) : State :=
  let s1 := { s with OSCCON := (s.OSCCON ||| 0x70) % 256 }
  let s2 := init_interrupts (config_io s1)
  { s2 with GPIO2 := true }

/-- One iteration of the `for(;;)` body of `main` (main.c lines 152-162): a
`switch (d)` whose four branches are all a bare `break`. -/
def loop_body (s : State) : State :=
  if s.d = DIR_ZERO then s
  else if s.d = DIR_CW then s
  else if s.d = DIR_CCW then s
  else s

/-! ## The environment -/

/-- What the hardware shows when an interrupt is taken: the two flags it
raises, the level of the input pin and the count of the timer. -/
structure Inputs where
  GPIF : Bool
  SPEED_CMD : Bool
  T0IF : Bool
  TMR0 : Nat
deriving DecidableEq, Repr

/-- The hardware-owned registers take the values of `i`; `TMR0` is a byte. -/
def present (s : State) (i : Inputs) : State :=
  { s with GPIF := i.GPIF, GPIO4 := i.SPEED_CMD, T0IF := i.T0IF, TMR0 := i.TMR0 % 256 }

/-- The free-running 8-bit counter after `n` more ticks; an overflow raises
`T0IF`. -/
def advanceTMR0 (n : Nat) (s : State) : State :=
  { s with
    TMR0 := (s.TMR0 + n) % 256
    T0IF := s.T0IF || decide (256 ≤ s.TMR0 % 256 + n) }

/-- What can happen after initialisation: an interrupt is taken with some
hardware inputs, or the main loop runs one iteration. -/
inductive Event where
  | interrupt (i : Inputs)
  | loop
deriving DecidableEq, Repr

/-- One event. -/
def step (s : State) : Event → State
  | .interrupt i => isr (present s i)
  | .loop => loop_body s

/-- A sequence of events, left to right. -/
def run (s : State) (es : List Event) : State :=
  es.foldl step s

/-- The three-way classification as section 4.2 of the specification words it,
over the threshold values. -/
def classify (w : Nat) : DIR_STATE :=
  if w < ZERO_LOW then DIR_CCW
  else if w > ZERO_HI then DIR_CW
  else DIR_ZERO

/-- A state in which the hardware has raised the edge flag with the input pin
low and the timer at `w`, and the edge interrupt is enabled. -/
def fallingEdge (s : State) (w : Nat) : State :=
  { s with GPIE := true, GPIF := true, GPIO4 := false, TMR0 := w }

/-- A state in which the hardware has raised the edge flag with the input pin
high, and the edge interrupt is enabled. -/
def risingEdge (s : State) : State :=
  { s with GPIE := true, GPIF := true, GPIO4 := true }

/-- A concrete register file, all clear. -/
def zeroState : State :=
  { T0CS := false, PSA := false, PS2 := false, PS1 := false, PS0 := false,
    GIE := false, PEIE := false, T0IE := false, GPIE := false, T0IF := false,
    GPIF := false, TMR1IE := false, TMR2IE := false,
    IOC := 0, WPU := 0, ANSEL := 0, CMCON0 := 0, OSCCON := 0, TMR0 := 0,
    TRISIO0 := false, TRISIO2 := false, TRISIO4 := false, TRISIO5 := false,
    GPIO0 := false, GPIO2 := false, GPIO4 := false, GPIO5 := false,
    d := 0, bitTime := 0 }

/-- A register file with a clockwise decision and a long capture on record. -/
def sampleA : State :=
  { zeroState with d := DIR_CW, bitTime := 250 }

/-- A register file with a timer overflow pending and the clockwise pin
high. -/
def sampleB : State :=
  { zeroState with
    T0IE := true
    T0IF := true
    GPIO0 := true
    d := DIR_ZERO
    bitTime := 191 }

/-- A register file with a counter-clockwise decision on record and the timer
running. -/
def sampleC : State :=
  { zeroState with TMR0 := 200, bitTime := 130, d := DIR_CCW }

/-- The end-to-end scenario from state `s`: `isr` is invoked for a rising edge
(`GPIF` set, `SPEED_CMD` high), the timer counts `N` ticks, `isr` is invoked
for the falling edge (`GPIF` set, `SPEED_CMD` low). -/
def capture (s : State) (N : Nat) : State :=
  let s1 := isr { s with GPIF := true, GPIO4 := true }
  let s2 := advanceTMR0 N s1
  isr { s2 with GPIF := true, GPIO4 := false }

/-- Two invocations of `isr` on a falling-edge condition (`GPIF` set,
`SPEED_CMD` low) from state `s`, the timer counting `k` ticks in between and no
rising edge: the pair of states after the first and after the second. -/
def twoFalling (s : State) (k : Nat) : State × State :=
  let s1 := isr { s with GPIF := true, GPIO4 := false }
  let s2 := isr { advanceTMR0 k s1 with GPIF := true, GPIO4 := false }
  (s1, s2)

/-- Whether the interrupt taken in state `s` with inputs `i` enters the edge
branch of `isr` on its falling-edge side. -/
def servicesFalling (s : State) (i : Inputs) : Bool :=
  s.GPIE && i.GPIF && !i.SPEED_CMD

/-- No event of the sequence, run from `s`, services a falling edge. -/
def noFallingServiced : State → List Event → Bool
  | _, [] => true
  | s, Event.interrupt i :: es =>
      !servicesFalling s i && noFallingServiced (step s (Event.interrupt i)) es
  | s, Event.loop :: es => noFallingServiced (step s Event.loop) es

/-- Whether the interrupt taken in state `s` with inputs `i` enters the edge
branch of `isr`: the test `(GPIE) && (GPIF)` of main.c line 102. -/
def servicesEdge (s : State) (i : Inputs) : Bool :=
  s.GPIE && i.GPIF

/-- Whether the interrupt taken in state `s` with inputs `i` enters the edge
branch of `isr` on its rising-edge side, the one that executes `TMR0 = 0`. -/
def servicesRising (s : State) (i : Inputs) : Bool :=
  s.GPIE && i.GPIF && i.SPEED_CMD

/-- How many interrupts of the sequence, run from `s`, satisfy `p` at the
moment they are taken. -/
def countServiced (p : State → Inputs → Bool) : State → List Event → Nat
  | _, [] => 0
  | s, Event.interrupt i :: es =>
      (if p s i then 1 else 0) + countServiced p (step s (Event.interrupt i)) es
  | s, Event.loop :: es => countServiced p (step s Event.loop) es

/-- The start of a sample run: a loop iteration and a timer overflow. -/
def sampleBefore : List Event :=
  [Event.loop, Event.interrupt ⟨false, false, true, 9⟩]

/-- The inputs of a rising edge: flag raised, pin high. -/
def sampleEdge : Inputs :=
  ⟨true, true, false, 40⟩

/-- The rest of a sample run: a falling-edge condition after 127 ticks, a loop
iteration, and a second rising-edge condition with an overflow. -/
def sampleAfter : List Event :=
  [Event.interrupt ⟨true, false, false, 127⟩,
   Event.loop,
   Event.interrupt ⟨true, true, true, 3⟩]

/-- The oscillator frequency in Hz once `main` has executed `OSCCON |= 0x70`:
"sets the clock for 8 mhz" (main.c line 138) and the figure 8,000,000 of the
comment in `init_interrupts`. -/
def oscillatorHz : Nat := 8000000

/-- The timer-0 prescaler ratio `init_interrupts` selects with `PS2 = 0`,
`PS1 = 1`, `PS0 = 1`: "prescaler set to 1:16". -/
def prescalerRatio : Nat := 16

/-- Timer ticks per second: "clock frequency/4/prescaler" (main.c line 61). -/
def tickHz : Nat := oscillatorHz / 4 / prescalerRatio

/-- Microseconds per timer tick. -/
def tickMicros : Nat := 1000000 / tickHz

/-- The count the 8-bit timer, reset at the rising edge, holds at the falling
edge of a pulse of `t` microseconds: the whole ticks elapsed, as a byte. -/
def capturedCount (t : ℚ) : Nat :=
  (⌊t / tickMicros⌋).toNat % 256

/-- The position of a direction along the width axis, in the order the
specification gives: counter-clockwise, zero band, clockwise. -/
def dirRank (x : DIR_STATE) : Nat :=
  if x = DIR_CCW then 0 else if x = DIR_ZERO then 1 else 2

/-- The invariant of the two globals: `d` is the classification of
`bitTime`. -/
def Decided (s : State) : Prop :=
  s.d = classify s.bitTime

instance (s : State) : Decidable (Decided s) :=
  inferInstanceAs (Decidable (s.d = classify s.bitTime))

/-! ## Shared lemmas -/

theorem ZERO_LOW_val : ZERO_LOW = 189 := rfl

theorem ZERO_HI_val : ZERO_HI = 193 := rfl

/-- What `isr` does when it services a falling edge. -/
theorem isr_falling (s : State) (hE : s.GPIE = true) (hF : s.GPIF = true)
    (hS : s.GPIO4 = false) :
    (isr s).bitTime = s.TMR0 % 256 ∧ (isr s).d = classify (s.TMR0 % 256) := by
  by_cases h1 : s.TMR0 % 256 < ZERO_MID - 2
  · by_cases hT : (s.T0IE && s.T0IF) = true <;>
      simp [isr, classify, ZERO_LOW, ZERO_HI, hE, hF, hS, h1, hT]
  · by_cases h2 : s.TMR0 % 256 > ZERO_MID + 2
    · by_cases hT : (s.T0IE && s.T0IF) = true <;>
        simp [isr, classify, ZERO_LOW, ZERO_HI, hE, hF, hS, h1, h2, hT]
    · by_cases hT : (s.T0IE && s.T0IF) = true <;>
        simp [isr, classify, ZERO_LOW, ZERO_HI, hE, hF, hS, h1, h2, hT]

theorem isr_fallingEdge (s : State) (w : Nat) :
    (isr (fallingEdge s w)).bitTime = w % 256 ∧
    (isr (fallingEdge s w)).d = classify (w % 256) :=
  isr_falling (fallingEdge s w) rfl rfl rfl

/-- An invocation of `isr` that does not enter the edge branch keeps `d`,
`bitTime` and `TMR0`. -/
theorem isr_no_edge (s : State) (h : (s.GPIE && s.GPIF) = false) :
    (isr s).d = s.d ∧ (isr s).bitTime = s.bitTime ∧ (isr s).TMR0 = s.TMR0 ∧
    (isr s).GPIE = s.GPIE := by
  by_cases hT : (s.T0IE && s.T0IF) = true <;> simp [isr, h, hT]

/-- What `isr` does when it services a rising edge. -/
theorem isr_rising (s : State) (hE : s.GPIE = true) (hF : s.GPIF = true)
    (hS : s.GPIO4 = true) :
    (isr s).TMR0 = 0 ∧ (isr s).bitTime = s.bitTime ∧ (isr s).d = s.d ∧
    (isr s).GPIE = false := by
  by_cases hT : (s.T0IE && s.T0IF) = true <;> simp [isr, hE, hF, hS, hT]

/-- The edge branch leaves `GPIE` clear and does not touch `GPIF`. -/
theorem isr_edge_flags (s : State) (hE : s.GPIE = true) (hF : s.GPIF = true) :
    (isr s).GPIE = false ∧ (isr s).GPIF = true := by
  by_cases h0 : s.GPIO4 = true
  · by_cases hT : (s.T0IE && s.T0IF) = true <;> simp [isr, hE, hF, h0, hT]
  · by_cases h1 : s.TMR0 % 256 < ZERO_MID - 2
    · by_cases hT : (s.T0IE && s.T0IF) = true <;> simp [isr, hE, hF, h0, h1, hT]
    · by_cases h2 : s.TMR0 % 256 > ZERO_MID + 2
      · by_cases hT : (s.T0IE && s.T0IF) = true <;>
          simp [isr, hE, hF, h0, h1, h2, hT]
      · by_cases hT : (s.T0IE && s.T0IF) = true <;>
          simp [isr, hE, hF, h0, h1, h2, hT]

theorem loop_body_id (s : State) : loop_body s = s := by
  unfold loop_body
  split_ifs <;> rfl

theorem isr_keeps_Decided (s : State) (h : Decided s) : Decided (isr s) := by
  unfold Decided at *
  by_cases hE : (s.GPIE && s.GPIF) = true
  · have hG : s.GPIE = true ∧ s.GPIF = true := by simpa using hE
    by_cases hS : s.GPIO4 = true
    · obtain ⟨_, hb, hd, _⟩ := isr_rising s hG.1 hG.2 hS
      rw [hb, hd, h]
    · obtain ⟨hb, hd⟩ := isr_falling s hG.1 hG.2 (by simpa using hS)
      rw [hb, hd]
  · obtain ⟨hd, hb, _, _⟩ := isr_no_edge s (by simpa using hE)
    rw [hb, hd, h]

theorem step_keeps_Decided (s : State) (e : Event) (h : Decided s) :
    Decided (step s e) := by
  cases e with
  | interrupt i => exact isr_keeps_Decided (present s i) h
  | loop =>
    show Decided (loop_body s)
    rw [loop_body_id]; exact h

theorem run_keeps_Decided (es : List Event) :
    ∀ s : State, Decided s → Decided (run s es) := by
  induction es with
  | nil => intro s h; exact h
  | cons e es ih =>
    intro s h
    exact ih (step s e) (step_keeps_Decided s e h)

/-- An interrupt that does not service a falling edge keeps `d`. -/
theorem step_keeps_d (s : State) (i : Inputs) (h : servicesFalling s i = false) :
    (step s (Event.interrupt i)).d = s.d := by
  show (isr (present s i)).d = s.d
  by_cases hE : (s.GPIE && i.GPIF) = true
  · have hG : s.GPIE = true ∧ i.GPIF = true := by simpa using hE
    have hS : i.SPEED_CMD = true := by
      simpa [servicesFalling, hG.1, hG.2] using h
    exact (isr_rising (present s i) hG.1 hG.2 hS).2.2.1
  · exact (isr_no_edge (present s i) (by simpa using hE)).1

theorem run_keeps_zero (es : List Event) :
    ∀ s : State, s.d = DIR_ZERO → noFallingServiced s es = true →
      (run s es).d = DIR_ZERO := by
  induction es with
  | nil => intro s h _; exact h
  | cons e es ih =>
    intro s h hn
    cases e with
    | interrupt i =>
      have hn2 : servicesFalling s i = false ∧
          noFallingServiced (step s (Event.interrupt i)) es = true := by
        simpa [noFallingServiced] using hn
      exact ih _ ((step_keeps_d s i hn2.1).trans h) hn2.2
    | loop =>
      have hn2 : noFallingServiced (step s Event.loop) es = true := by
        simpa [noFallingServiced] using hn
      refine ih _ ?_ hn2
      show (loop_body s).d = DIR_ZERO
      rw [loop_body_id]; exact h

/-- The frame of `isr`: it writes `TMR0`, `bitTime`, `d`, `GPIE` and `T0IF` and
no other field. -/
theorem isr_frame (s : State) :
    isr s = { s with
      TMR0 := (isr s).TMR0
      bitTime := (isr s).bitTime
      d := (isr s).d
      GPIE := (isr s).GPIE
      T0IF := (isr s).T0IF } := by
  by_cases hE : (s.GPIE && s.GPIF) = true
  · by_cases h0 : s.GPIO4 = true
    · by_cases hT : (s.T0IE && s.T0IF) = true <;> simp [isr, hE, h0, hT]
    · by_cases h1 : s.TMR0 % 256 < ZERO_MID - 2
      · by_cases hT : (s.T0IE && s.T0IF) = true <;> simp [isr, hE, h0, h1, hT]
      · by_cases h2 : s.TMR0 % 256 > ZERO_MID + 2
        · by_cases hT : (s.T0IE && s.T0IF) = true <;>
            simp [isr, hE, h0, h1, h2, hT]
        · by_cases hT : (s.T0IE && s.T0IF) = true <;>
            simp [isr, hE, h0, h1, h2, hT]
  · by_cases hT : (s.T0IE && s.T0IF) = true <;> simp [isr, hE, hT]

/-- The function `isr` writes no output pin. -/
theorem isr_keeps_pins (s : State) :
    (isr s).GPIO0 = s.GPIO0 ∧ (isr s).GPIO2 = s.GPIO2 ∧
    (isr s).GPIO5 = s.GPIO5 := by
  have h0 := congrArg State.GPIO0 (isr_frame s)
  have h2 := congrArg State.GPIO2 (isr_frame s)
  have h5 := congrArg State.GPIO5 (isr_frame s)
  exact ⟨h0, h2, h5⟩

/-- No event writes an output pin. -/
theorem step_keeps_pins (s : State) (e : Event) :
    (step s e).GPIO0 = s.GPIO0 ∧ (step s e).GPIO2 = s.GPIO2 ∧
    (step s e).GPIO5 = s.GPIO5 := by
  cases e with
  | interrupt i => exact isr_keeps_pins (present s i)
  | loop =>
    show (loop_body s).GPIO0 = _ ∧ (loop_body s).GPIO2 = _ ∧ (loop_body s).GPIO5 = _
    rw [loop_body_id]
    exact ⟨rfl, rfl, rfl⟩

theorem run_keeps_pins (es : List Event) :
    ∀ s : State, (run s es).GPIO0 = s.GPIO0 ∧ (run s es).GPIO2 = s.GPIO2 ∧
      (run s es).GPIO5 = s.GPIO5 := by
  induction es with
  | nil => intro s; exact ⟨rfl, rfl, rfl⟩
  | cons e es ih =>
    intro s
    obtain ⟨a, b, c⟩ := ih (step s e)
    obtain ⟨a2, b2, c2⟩ := step_keeps_pins s e
    exact ⟨a.trans a2, b.trans b2, c.trans c2⟩

/-- A serviced falling edge does not write `TMR0`. -/
theorem isr_falling_TMR0 (s : State) (hE : s.GPIE = true) (hF : s.GPIF = true)
    (hS : s.GPIO4 = false) : (isr s).TMR0 = s.TMR0 := by
  by_cases h1 : s.TMR0 % 256 < ZERO_MID - 2
  · by_cases hT : (s.T0IE && s.T0IF) = true <;> simp [isr, hE, hF, hS, h1, hT]
  · by_cases h2 : s.TMR0 % 256 > ZERO_MID + 2
    · by_cases hT : (s.T0IE && s.T0IF) = true <;>
        simp [isr, hE, hF, hS, h1, h2, hT]
    · by_cases hT : (s.T0IE && s.T0IF) = true <;>
        simp [isr, hE, hF, hS, h1, h2, hT]

/-- An interrupt that does not service an edge writes none of `d`, `bitTime`,
`TMR0`, `GPIE`. -/
theorem step_no_edge (s : State) (i : Inputs) (h : servicesEdge s i = false) :
    (step s (Event.interrupt i)).d = s.d ∧
    (step s (Event.interrupt i)).bitTime = s.bitTime ∧
    (step s (Event.interrupt i)).TMR0 = i.TMR0 % 256 ∧
    (step s (Event.interrupt i)).GPIE = s.GPIE :=
  isr_no_edge (present s i) h

/-- An interrupt that services an edge returns with `GPIE` clear. -/
theorem step_edge_clears_GPIE (s : State) (i : Inputs)
    (h : servicesEdge s i = true) : (step s (Event.interrupt i)).GPIE = false := by
  have hG : s.GPIE = true ∧ i.GPIF = true := by simpa [servicesEdge] using h
  exact (isr_edge_flags (present s i) hG.1 hG.2).1

/-- An interrupt that does not service a falling edge writes neither `d` nor
`bitTime`. -/
theorem step_not_falling (s : State) (i : Inputs)
    (h : servicesFalling s i = false) :
    (step s (Event.interrupt i)).d = s.d ∧
    (step s (Event.interrupt i)).bitTime = s.bitTime := by
  by_cases hE : servicesEdge s i = true
  · have hG : s.GPIE = true ∧ i.GPIF = true := by simpa [servicesEdge] using hE
    have hS : i.SPEED_CMD = true := by
      simpa [servicesFalling, hG.1, hG.2] using h
    obtain ⟨_, hb, hd, _⟩ := isr_rising (present s i) hG.1 hG.2 hS
    exact ⟨hd, hb⟩
  · obtain ⟨hd, hb, _, _⟩ := step_no_edge s i (by simpa using hE)
    exact ⟨hd, hb⟩

/-- An interrupt that does not service a rising edge leaves in `TMR0` the count
the hardware presented. -/
theorem step_not_rising (s : State) (i : Inputs)
    (h : servicesRising s i = false) :
    (step s (Event.interrupt i)).TMR0 = i.TMR0 % 256 := by
  by_cases hE : servicesEdge s i = true
  · have hG : s.GPIE = true ∧ i.GPIF = true := by simpa [servicesEdge] using hE
    have hS : i.SPEED_CMD = false := by
      simpa [servicesRising, hG.1, hG.2] using h
    exact isr_falling_TMR0 (present s i) hG.1 hG.2 hS
  · exact (step_no_edge s i (by simpa using hE)).2.2.1

/-- With `GPIE` clear no event sets it, and `d` and `bitTime` stay. -/
theorem step_GPIE_off (s : State) (e : Event) (h : s.GPIE = false) :
    (step s e).GPIE = false ∧ (step s e).d = s.d ∧
    (step s e).bitTime = s.bitTime := by
  cases e with
  | interrupt i =>
    obtain ⟨hd, hb, _, hg⟩ := step_no_edge s i (by simp [servicesEdge, h])
    exact ⟨hg.trans h, hd, hb⟩
  | loop =>
    show (loop_body s).GPIE = false ∧ (loop_body s).d = s.d ∧
      (loop_body s).bitTime = s.bitTime
    rw [loop_body_id]
    exact ⟨h, rfl, rfl⟩

theorem run_GPIE_off (es : List Event) :
    ∀ s : State, s.GPIE = false →
      (run s es).GPIE = false ∧ (run s es).d = s.d ∧
      (run s es).bitTime = s.bitTime ∧
      countServiced servicesEdge s es = 0 := by
  induction es with
  | nil => intro s h; exact ⟨h, rfl, rfl, rfl⟩
  | cons e es ih =>
    intro s h
    obtain ⟨hg, hd, hb⟩ := step_GPIE_off s e h
    obtain ⟨a, b, c, n⟩ := ih (step s e) hg
    refine ⟨a, b.trans hd, c.trans hb, ?_⟩
    cases e with
    | interrupt i =>
      have h0 : servicesEdge s i = false := by simp [servicesEdge, h]
      simp [countServiced, h0, n]
    | loop => simpa [countServiced] using n

/-- The edge branch is entered at most once in any run. -/
theorem countServiced_edge_le_one (es : List Event) :
    ∀ s : State, countServiced servicesEdge s es ≤ 1 := by
  induction es with
  | nil => intro s; exact Nat.zero_le 1
  | cons e es ih =>
    intro s
    cases e with
    | interrupt i =>
      by_cases hE : servicesEdge s i = true
      · have h0 := (run_GPIE_off es _ (step_edge_clears_GPIE s i hE)).2.2.2
        simp [countServiced, hE, h0]
      · have h1 := ih (step s (Event.interrupt i))
        simpa [countServiced, hE] using h1
    | loop => simpa [countServiced] using ih (step s Event.loop)

/-- Every entry into the edge branch is on exactly one of its two sides. -/
theorem countServiced_split (es : List Event) :
    ∀ s : State, countServiced servicesFalling s es
      + countServiced servicesRising s es = countServiced servicesEdge s es := by
  induction es with
  | nil => intro s; rfl
  | cons e es ih =>
    intro s
    cases e with
    | interrupt i =>
      have h := ih (step s (Event.interrupt i))
      simp only [countServiced]
      rw [← h]
      cases hg : s.GPIE <;> cases hf : i.GPIF <;> cases hs : i.SPEED_CMD <;>
        simp [servicesFalling, servicesRising, servicesEdge, hg, hf, hs] <;> omega
    | loop => simpa [countServiced] using ih (step s Event.loop)

/-- While the edge interrupt is still enabled in a run from the initialised
state, nothing has been captured. -/
theorem run_enabled_untouched (es : List Event) :
    ∀ s : State, (s.GPIE = true → s.d = DIR_ZERO ∧ s.bitTime = ZERO_MID) →
      (run s es).GPIE = true →
      (run s es).d = DIR_ZERO ∧ (run s es).bitTime = ZERO_MID := by
  induction es with
  | nil => intro s h hg; exact h hg
  | cons e es ih =>
    intro s h hg
    refine ih (step s e) ?_ hg
    intro hg1
    by_cases hs : s.GPIE = true
    · cases e with
      | interrupt i =>
        by_cases hE : servicesEdge s i = true
        · rw [step_edge_clears_GPIE s i hE] at hg1
          exact absurd hg1 (by decide)
        · obtain ⟨hd, hb, _, _⟩ := step_no_edge s i (by simpa using hE)
          rw [hd, hb]; exact h hs
      | loop =>
        show (loop_body s).d = DIR_ZERO ∧ (loop_body s).bitTime = ZERO_MID
        rw [loop_body_id]; exact h hs
    · rw [(step_GPIE_off s e (by simpa using hs)).1] at hg1
      exact absurd hg1 (by decide)

theorem run_append (s : State) (es fs : List Event) :
    run s (es ++ fs) = run (run s es) fs := by
  simp [run, List.foldl_append]

/-- Once an edge has been serviced in a run, `GPIE` is clear at its end. -/
theorem count_pos_GPIE_off (es : List Event) :
    ∀ s : State, 0 < countServiced servicesEdge s es → (run s es).GPIE = false := by
  induction es with
  | nil => intro s h; exact absurd h (Nat.lt_irrefl 0)
  | cons e es ih =>
    intro s h
    cases e with
    | interrupt i =>
      by_cases hE : servicesEdge s i = true
      · exact (run_GPIE_off es _ (step_edge_clears_GPIE s i hE)).1
      · exact ih _ (by simpa [countServiced, hE] using h)
    | loop => exact ih _ (by simpa [countServiced] using h)

theorem tickMicros_val : tickMicros = 8 := by decide

/-- The captured count of a pulse shorter than the wrap period brackets its
duration. -/
theorem capturedCount_bounds (t : ℚ) (h0 : 0 ≤ t) (h1 : t < 2048) :
    capturedCount t < 256 ∧ (8 : ℚ) * (capturedCount t : ℚ) ≤ t ∧
    t < 8 * ((capturedCount t : ℚ) + 1) := by
  have hf0 : (0 : ℤ) ≤ ⌊t / 8⌋ := Int.floor_nonneg.mpr (by positivity)
  have hf1 : ⌊t / 8⌋ < 256 := by
    rw [Int.floor_lt]
    rw [div_lt_iff₀ (by norm_num)]
    norm_num
    linarith
  obtain ⟨k, hk⟩ := Int.eq_ofNat_of_zero_le hf0
  have hk256 : k < 256 := by omega
  have hc : capturedCount t = k := by
    unfold capturedCount
    rw [tickMicros_val]
    norm_num
    rw [hk]
    simp [Nat.mod_eq_of_lt hk256]
  have hle : ((⌊t / 8⌋ : ℤ) : ℚ) ≤ t / 8 := Int.floor_le _
  have hlt : t / 8 < ((⌊t / 8⌋ : ℤ) : ℚ) + 1 := Int.lt_floor_add_one _
  rw [hk] at hle hlt
  rw [hc]
  refine ⟨hk256, ?_, ?_⟩
  · have := (le_div_iff₀ (by norm_num : (0 : ℚ) < 8)).mp hle
    push_cast at this
    linarith
  · have := (div_lt_iff₀ (by norm_num : (0 : ℚ) < 8)).mp hlt
    push_cast at this
    linarith

/-- The three outcomes of the classification, by threshold. -/
theorem classify_iff (k : Nat) :
    (classify k = DIR_CCW ↔ k < 189) ∧
    (classify k = DIR_ZERO ↔ ¬ k < 189 ∧ ¬ 193 < k) ∧
    (classify k = DIR_CW ↔ 193 < k) := by
  unfold classify
  rw [ZERO_LOW_val, ZERO_HI_val]
  by_cases h1 : k < 189
  · have h2 : ¬ 193 < k := by omega
    simp [h1, h2, DIR_CCW, DIR_CW, DIR_ZERO]
  · by_cases h2 : 193 < k
    · simp [h1, h2, DIR_CCW, DIR_CW, DIR_ZERO]
    · simp [h1, h2, DIR_CCW, DIR_CW, DIR_ZERO]

/-! ## Claims -/

/-- C1: for every 8-bit timer value `w`, when `isr` services the edge interrupt
(`GPIE` and `GPIF` set) with `SPEED_CMD` low and `TMR0 = w`, it leaves
`bitTime = w` and sets `d = DIR_CCW` if `w < ZERO_LOW`, `d = DIR_CW` if
`w > ZERO_HI`, and `d = DIR_ZERO` if `ZERO_LOW ≤ w ≤ ZERO_HI`, the thresholds
being the values 189 and 193 the comparisons of `isr` use. -/
theorem isr_falling_edge_three_way (s : State) (w : Nat) (hw : w < 256)
    (hE : s.GPIE = true) (hF : s.GPIF = true) (hS : SPEED_CMD s = false)
    (hT : s.TMR0 = w) :
    (isr s).bitTime = w ∧
    (w < ZERO_LOW → (isr s).d = DIR_CCW) ∧
    (w > ZERO_HI → (isr s).d = DIR_CW) ∧
    (ZERO_LOW ≤ w ∧ w ≤ ZERO_HI → (isr s).d = DIR_ZERO) ∧
    ZERO_LOW = 189 ∧ ZERO_HI = 193 := by
  obtain ⟨hb, hd⟩ := isr_falling s hE hF hS
  rw [hT, Nat.mod_eq_of_lt hw] at hb hd
  refine ⟨hb, ?_, ?_, ?_, rfl, rfl⟩
  · intro h
    rw [hd, classify, if_pos h]
  · intro h
    have h1 : ¬ w < ZERO_LOW := by
      rw [ZERO_LOW_val]; rw [ZERO_HI_val] at h; omega
    rw [hd, classify, if_neg h1, if_pos h]
  · intro h
    have h1 : ¬ w < ZERO_LOW := by omega
    have h2 : ¬ w > ZERO_HI := by omega
    rw [hd, classify, if_neg h1, if_neg h2]

theorem isr_falling_edge_three_way_witness :
    (isr (fallingEdge zeroState 127)).bitTime = 127 ∧
    (127 < ZERO_LOW → (isr (fallingEdge zeroState 127)).d = DIR_CCW) ∧
    (127 > ZERO_HI → (isr (fallingEdge zeroState 127)).d = DIR_CW) ∧
    (ZERO_LOW ≤ 127 ∧ 127 ≤ ZERO_HI → (isr (fallingEdge zeroState 127)).d = DIR_ZERO) ∧
    ZERO_LOW = 189 ∧ ZERO_HI = 193 :=
  isr_falling_edge_three_way (fallingEdge zeroState 127) 127 (by decide) rfl rfl rfl rfl

/-- C2: what the code does on the end-to-end scenario.  From the state after
the initialisation of `main`, a rising-edge `isr`, `N` timer ticks and a
falling-edge `isr` leave `d = DIR_ZERO` and `bitTime = ZERO_MID` for every `N`:
the rising-edge invocation returns with `GPIE` clear, so the falling-edge
invocation does not enter the edge branch.  For `N = 127` the result is not
`DIR_CCW` and for `N = 255` it is not `DIR_CW`. -/
theorem capture_after_init_stays_zero (r : State) (N : Nat) :
    (main_init (startup r)).d = DIR_ZERO ∧
    (main_init (startup r)).GPIE = true ∧
    (capture (main_init (startup r)) N).d = DIR_ZERO ∧
    (capture (main_init (startup r)) N).bitTime = ZERO_MID ∧
    (capture (main_init (startup r)) 127).d ≠ DIR_CCW ∧
    (capture (main_init (startup r)) 255).d ≠ DIR_CW := by
  have key : ∀ n, (capture (main_init (startup r)) n).d = DIR_ZERO ∧
      (capture (main_init (startup r)) n).bitTime = ZERO_MID := by
    intro n
    have h1 := isr_rising { main_init (startup r) with GPIF := true, GPIO4 := true }
      rfl rfl rfl
    have h2 := isr_no_edge
      { advanceTMR0 n (isr { main_init (startup r) with GPIF := true, GPIO4 := true })
        with GPIF := true, GPIO4 := false }
      (by
        show ((isr { main_init (startup r) with GPIF := true, GPIO4 := true }).GPIE
          && true) = false
        rw [h1.2.2.2]; rfl)
    constructor
    · show (isr _).d = DIR_ZERO
      rw [h2.1]
      show (isr { main_init (startup r) with GPIF := true, GPIO4 := true }).d = DIR_ZERO
      rw [h1.2.2.1]; rfl
    · show (isr _).bitTime = ZERO_MID
      rw [h2.2.1]
      show (isr { main_init (startup r) with GPIF := true, GPIO4 := true }).bitTime
        = ZERO_MID
      rw [h1.2.1]; rfl
  refine ⟨rfl, rfl, (key N).1, (key N).2, ?_, ?_⟩
  · rw [(key 127).1]; decide
  · rw [(key 255).1]; decide

/-- C3: what the code does to the edge flags.  Whenever `isr` services an edge
(`GPIE` and `GPIF` set, `SPEED_CMD` high or low, any timer value), it returns
with `GPIE = 0` and `GPIF` still 1: the statement commented "clear the
interrupt flag" clears the enable bit, and a later invocation with an edge
pending does not enter the edge branch (`d`, `bitTime`, `TMR0` untouched). -/
theorem isr_edge_disables_edge_interrupt (s : State) (w : Nat) (i : Inputs) :
    (isr (fallingEdge s w)).GPIE = false ∧ (isr (fallingEdge s w)).GPIF = true ∧
    (isr (risingEdge s)).GPIE = false ∧ (isr (risingEdge s)).GPIF = true ∧
    (isr (present (isr (risingEdge s)) i)).d = (isr (risingEdge s)).d ∧
    (isr (present (isr (risingEdge s)) i)).bitTime = (isr (risingEdge s)).bitTime ∧
    (isr (present (isr (risingEdge s)) i)).TMR0 = i.TMR0 % 256 := by
  have hf := isr_edge_flags (fallingEdge s w) rfl rfl
  have hr := isr_edge_flags (risingEdge s) rfl rfl
  have hn := isr_no_edge (present (isr (risingEdge s)) i)
    (by
      show ((isr (risingEdge s)).GPIE && i.GPIF) = false
      rw [hr.1]; rfl)
  exact ⟨hf.1, hf.2, hr.1, hr.2, hn.1, hn.2.1, hn.2.2.1⟩

/-- C4: with `ZERO_MID = 191` and the thresholds 189 and 193 of the
comparisons of `isr`, a serviced falling edge with `TMR0 = w` gives
`d = DIR_CCW` for `w = 127` and `w = 188`, `d = DIR_ZERO` for `w = 189`, 191
and 193, and `d = DIR_CW` for `w = 194` and `w = 255`. -/
theorem isr_reference_calibration (s : State) :
    ZERO_MID = 191 ∧ ZERO_LOW = 189 ∧ ZERO_HI = 193 ∧
    (isr (fallingEdge s 127)).d = DIR_CCW ∧
    (isr (fallingEdge s 188)).d = DIR_CCW ∧
    (isr (fallingEdge s 189)).d = DIR_ZERO ∧
    (isr (fallingEdge s 191)).d = DIR_ZERO ∧
    (isr (fallingEdge s 193)).d = DIR_ZERO ∧
    (isr (fallingEdge s 194)).d = DIR_CW ∧
    (isr (fallingEdge s 255)).d = DIR_CW := by
  refine ⟨rfl, rfl, rfl, ?_, ?_, ?_, ?_, ?_, ?_, ?_⟩ <;>
    first
    | (rw [(isr_fallingEdge s _).2]; decide)

/-- C5: `d` is the three-way classification of `bitTime` in the initial state
(`bitTime = ZERO_MID`, `d = DIR_ZERO`), after the initialisation of `main`, and
in every state reached from either by any sequence of `isr` invocations (with
arbitrary `GPIF`, `SPEED_CMD`, `T0IF` and `TMR0`) and main-loop iterations. -/
theorem d_is_classification_of_bitTime (r : State) (es : List Event) :
    (startup r).bitTime = ZERO_MID ∧ (startup r).d = DIR_ZERO ∧
    (startup r).d = classify (startup r).bitTime ∧
    (run (startup r) es).d = classify (run (startup r) es).bitTime ∧
    (run (main_init (startup r)) es).d
      = classify (run (main_init (startup r)) es).bitTime := by
  have h0 : Decided (startup r) := by
    show DIR_ZERO = classify ZERO_MID
    decide
  have h1 : Decided (main_init (startup r)) := h0
  exact ⟨rfl, rfl, h0, run_keeps_Decided es _ h0, run_keeps_Decided es _ h1⟩

/-- C6: the initial value of `d` is `DIR_ZERO`; `d` is still `DIR_ZERO` after
`config_io`, `init_interrupts` and `ENABLE = 1`, and after any sequence of
`isr` invocations and main-loop iterations in which no falling edge is
serviced. -/
theorem d_zero_until_falling_edge (r : State) (es : List Event)
    (h : noFallingServiced (main_init (startup r)) es = true) :
    (startup r).d = DIR_ZERO ∧
    (config_io (startup r)).d = DIR_ZERO ∧
    (init_interrupts (config_io (startup r))).d = DIR_ZERO ∧
    (main_init (startup r)).d = DIR_ZERO ∧
    ENABLE (main_init (startup r)) = true ∧
    (run (main_init (startup r)) es).d = DIR_ZERO :=
  ⟨rfl, rfl, rfl, rfl, rfl, run_keeps_zero es _ rfl h⟩

theorem d_zero_until_falling_edge_witness :
    noFallingServiced (main_init (startup zeroState))
      [Event.loop,
       Event.interrupt ⟨false, false, true, 0⟩,
       Event.interrupt ⟨false, true, false, 40⟩,
       Event.interrupt ⟨true, true, false, 77⟩,
       Event.loop,
       Event.interrupt ⟨false, false, true, 3⟩] = true ∧
    (run (main_init (startup zeroState))
      [Event.loop,
       Event.interrupt ⟨false, false, true, 0⟩,
       Event.interrupt ⟨false, true, false, 40⟩,
       Event.interrupt ⟨true, true, false, 77⟩,
       Event.loop,
       Event.interrupt ⟨false, false, true, 3⟩]).d = DIR_ZERO :=
  ⟨by decide, (d_zero_until_falling_edge zeroState _ (by decide)).2.2.2.2.2⟩

/-- C7: for every state, when `isr` services the edge interrupt (`GPIE` and
`GPIF` set) with `SPEED_CMD` high, `TMR0` is 0 afterwards and both `bitTime`
and `d` are unchanged. -/
theorem isr_rising_edge_resets_only (s : State) (hE : s.GPIE = true)
    (hF : s.GPIF = true) (hS : SPEED_CMD s = true) :
    (isr s).TMR0 = 0 ∧ (isr s).bitTime = s.bitTime ∧ (isr s).d = s.d := by
  obtain ⟨h1, h2, h3, _⟩ := isr_rising s hE hF hS
  exact ⟨h1, h2, h3⟩

theorem isr_rising_edge_resets_only_witness :
    (isr (risingEdge sampleC)).TMR0 = 0 ∧
    (isr (risingEdge sampleC)).bitTime
      = 130 ∧
    (isr (risingEdge sampleC)).d
      = DIR_CCW :=
  isr_rising_edge_resets_only
    (risingEdge sampleC) rfl rfl rfl

/-- C8: for every state, if `isr` is invoked on a falling-edge condition
(`GPIF` set, `SPEED_CMD` low) and then, with no rising edge in between and
after `TMR0` has advanced by any number `k` of ticks, `isr` is invoked again on
a falling-edge condition, then `bitTime` and `d` after the second invocation
equal their values after the first. -/
theorem second_falling_edge_keeps_capture (s : State) (k : Nat) :
    (twoFalling s k).2.bitTime = (twoFalling s k).1.bitTime ∧
    (twoFalling s k).2.d = (twoFalling s k).1.d := by
  have hoff : (isr { s with GPIF := true, GPIO4 := false }).GPIE = false := by
    by_cases hE : s.GPIE = true
    · exact (isr_edge_flags { s with GPIF := true, GPIO4 := false } hE rfl).1
    · have hE2 : s.GPIE = false := by simpa using hE
      have h := (isr_no_edge { s with GPIF := true, GPIO4 := false }
        (by show (s.GPIE && true) = false; rw [hE2]; rfl)).2.2.2
      rw [h]; exact hE2
  have h2 := isr_no_edge
    { advanceTMR0 k (isr { s with GPIF := true, GPIO4 := false })
      with GPIF := true, GPIO4 := false }
    (by
      show ((isr { s with GPIF := true, GPIO4 := false }).GPIE && true) = false
      rw [hoff]; rfl)
  exact ⟨h2.2.1, h2.1⟩

/-- C9: ordering the states `DIR_CCW < DIR_ZERO < DIR_CW`, for all 8-bit
widths `w1 < w2` the direction decided for `w1` is at most the direction
decided for `w2`; there are no `w1 < w2` with `w1` decided `DIR_CW` and `w2`
decided `DIR_CCW`. -/
theorem decision_monotone (s1 s2 : State) (w1 w2 : Nat) (h12 : w1 < w2)
    (h2 : w2 < 256) :
    dirRank (isr (fallingEdge s1 w1)).d ≤ dirRank (isr (fallingEdge s2 w2)).d ∧
    ¬ ((isr (fallingEdge s1 w1)).d = DIR_CW ∧
       (isr (fallingEdge s2 w2)).d = DIR_CCW) := by
  have h1 : w1 < 256 := by omega
  rw [(isr_fallingEdge s1 w1).2, (isr_fallingEdge s2 w2).2,
    Nat.mod_eq_of_lt h1, Nat.mod_eq_of_lt h2]
  unfold classify
  rw [ZERO_LOW_val, ZERO_HI_val]
  constructor
  · split_ifs <;> first | omega | decide
  · split_ifs <;> first | omega | decide

theorem decision_monotone_witness :
    dirRank (isr (fallingEdge zeroState 188)).d
      ≤ dirRank (isr (fallingEdge (startup zeroState) 194)).d ∧
    ¬ ((isr (fallingEdge zeroState 188)).d = DIR_CW ∧
       (isr (fallingEdge (startup zeroState) 194)).d = DIR_CCW) :=
  decision_monotone zeroState (startup zeroState) 188 194 (by decide) (by decide)

/-- C10: for any two states that both service a falling edge (`GPIE` and
`GPIF` set, `SPEED_CMD` low) with the same `TMR0` value `w`, the resulting `d`
and `bitTime` are equal, whatever the previous `d`, previous `bitTime` and all
other registers were. -/
theorem decision_has_no_hidden_state (s1 s2 : State) (w : Nat)
    (hE1 : s1.GPIE = true) (hF1 : s1.GPIF = true) (hS1 : SPEED_CMD s1 = false)
    (hT1 : s1.TMR0 = w)
    (hE2 : s2.GPIE = true) (hF2 : s2.GPIF = true) (hS2 : SPEED_CMD s2 = false)
    (hT2 : s2.TMR0 = w) :
    (isr s1).d = (isr s2).d ∧ (isr s1).bitTime = (isr s2).bitTime := by
  obtain ⟨hb1, hd1⟩ := isr_falling s1 hE1 hF1 hS1
  obtain ⟨hb2, hd2⟩ := isr_falling s2 hE2 hF2 hS2
  rw [hb1, hd1, hb2, hd2, hT1, hT2]
  exact ⟨rfl, rfl⟩

theorem decision_has_no_hidden_state_witness :
    (isr (fallingEdge sampleA 100)).d
      = (isr (fallingEdge sampleB 100)).d ∧
    (isr (fallingEdge sampleA 100)).bitTime
      = (isr (fallingEdge sampleB 100)).bitTime :=
  decision_has_no_hidden_state
    (fallingEdge sampleA 100)
    (fallingEdge sampleB 100)
    100 rfl rfl rfl rfl rfl rfl rfl rfl

/-- C11: for every state in which the edge condition is not serviceable
(`GPIE` or `GPIF` clear), an `isr` invocation leaves `bitTime`, `d` and `TMR0`
unchanged; if the timer-0 overflow is pending (`T0IE` and `T0IF` set) the only
change is `T0IF = 0`, and otherwise the state is unchanged entirely. -/
theorem isr_missed_edge_retains_state (s : State)
    (h : (s.GPIE && s.GPIF) = false) :
    (isr s).bitTime = s.bitTime ∧ (isr s).d = s.d ∧ (isr s).TMR0 = s.TMR0 ∧
    ((s.T0IE && s.T0IF) = true → isr s = { s with T0IF := false }) ∧
    ((s.T0IE && s.T0IF) = false → isr s = s) := by
  obtain ⟨hd, hb, ht, _⟩ := isr_no_edge s h
  refine ⟨hb, hd, ht, ?_, ?_⟩
  · intro hT
    simp [isr, h, hT]
  · intro hT
    simp [isr, h, hT]

theorem isr_missed_edge_retains_state_witness :
    (isr sampleB).bitTime = sampleB.bitTime ∧ (isr sampleB).d = sampleB.d ∧
    (isr sampleB).TMR0 = sampleB.TMR0 ∧
    ((sampleB.T0IE && sampleB.T0IF) = true → isr sampleB = { sampleB with T0IF := false }) ∧
    ((sampleB.T0IE && sampleB.T0IF) = false → isr sampleB = sampleB) :=
  isr_missed_edge_retains_state sampleB rfl

/-- C12: once `main` has executed `ENABLE = 1`, `ENABLE` (`GPIO2`) is 1 in
every later state, for every sequence of `isr` invocations and main-loop
iterations and whatever `d` is; no `isr` invocation and no main-loop iteration
writes `ENABLE`. -/
theorem enable_held_high (r : State) (es : List Event) :
    ENABLE (main_init r) = true ∧
    ENABLE (run (main_init r) es) = true ∧
    (∀ (s : State) (e : Event), ENABLE (step s e) = ENABLE s) := by
  refine ⟨rfl, ?_, ?_⟩
  · exact (run_keeps_pins es (main_init r)).2.1
  · intro s e
    exact (step_keeps_pins s e).2.1

/-- C15: for every value of `d`, one iteration of the `for(;;)` body of `main`
leaves the whole state unchanged; neither the initialisation of `main`, nor an
iteration of its loop, nor `isr`, nor any sequence of them writes `PWM_CW`
(`GPIO0`) or `PWM_CCW` (`GPIO5`). -/
theorem main_loop_has_no_effect (s : State) (es : List Event) :
    loop_body s = s ∧
    PWM_CW (isr s) = PWM_CW s ∧ PWM_CCW (isr s) = PWM_CCW s ∧
    PWM_CW (main_init s) = PWM_CW s ∧ PWM_CCW (main_init s) = PWM_CCW s ∧
    PWM_CW (run s es) = PWM_CW s ∧ PWM_CCW (run s es) = PWM_CCW s :=
  ⟨loop_body_id s, (isr_keeps_pins s).1, (isr_keeps_pins s).2.2,
    rfl, rfl, (run_keeps_pins es s).1, (run_keeps_pins es s).2.2⟩

/-- C13: what the code publishes for a pulse of `N` ticks.  From any state
with the edge interrupt enabled, the serviced rising edge resets `TMR0` to 0
and the 8-bit counter holds `N mod 256` when `isr` is invoked for the falling
edge, but that invocation finds `GPIE` clear and publishes nothing: `bitTime`
and `d` keep their previous values.  From the state after initialisation a
pulse of `256 + 127` ticks leaves `bitTime = ZERO_MID = 191` and
`d = DIR_ZERO`, not `bitTime = 127` and `d = DIR_CCW`. -/
theorem wrapped_pulse_publishes_nothing (s r : State) (N : Nat) :
    (isr { { s with GPIE := true } with GPIF := true, GPIO4 := true }).TMR0 = 0 ∧
    (capture { s with GPIE := true } N).TMR0 = N % 256 ∧
    (capture { s with GPIE := true } N).bitTime = s.bitTime ∧
    (capture { s with GPIE := true } N).d = s.d ∧
    (main_init (startup r)).GPIE = true ∧
    (capture (main_init (startup r)) (256 + 127)).TMR0 = 127 ∧
    (capture (main_init (startup r)) (256 + 127)).bitTime = 191 ∧
    (capture (main_init (startup r)) (256 + 127)).bitTime ≠ (256 + 127) % 256 ∧
    (capture (main_init (startup r)) (256 + 127)).d = DIR_ZERO ∧
    (capture (main_init (startup r)) (256 + 127)).d ≠ classify ((256 + 127) % 256) := by
  have key : ∀ (u : State) (n : Nat), u.GPIE = true →
      (isr { u with GPIF := true, GPIO4 := true }).TMR0 = 0 ∧
      (capture u n).TMR0 = n % 256 ∧ (capture u n).bitTime = u.bitTime ∧
      (capture u n).d = u.d := by
    intro u n hu
    obtain ⟨h0, hb, hd, hg⟩ :=
      isr_rising { u with GPIF := true, GPIO4 := true } hu rfl rfl
    obtain ⟨kd, kb, kt, _⟩ := isr_no_edge
      { advanceTMR0 n (isr { u with GPIF := true, GPIO4 := true })
        with GPIF := true, GPIO4 := false }
      (by
        show ((isr { u with GPIF := true, GPIO4 := true }).GPIE && true) = false
        rw [hg]; rfl)
    refine ⟨h0, ?_, ?_, ?_⟩
    · show (isr _).TMR0 = n % 256
      rw [kt]
      show ((isr { u with GPIF := true, GPIO4 := true }).TMR0 + n) % 256 = n % 256
      rw [h0, Nat.zero_add]
    · show (isr _).bitTime = u.bitTime
      rw [kb]
      exact hb
    · show (isr _).d = u.d
      rw [kd]
      exact hd
  obtain ⟨a0, a1, a2, a3⟩ := key { s with GPIE := true } N rfl
  obtain ⟨_, b1, b2, b3⟩ := key (main_init (startup r)) (256 + 127) rfl
  refine ⟨a0, a1, a2, a3, rfl, b1, b2, ?_, b3, ?_⟩
  · rw [b2]
    show ZERO_MID ≠ (256 + 127) % 256
    decide
  · rw [b3]
    show DIR_ZERO ≠ classify ((256 + 127) % 256)
    decide

/-- C16: every `isr` invocation that services an edge returns with `GPIE = 0`
and no event sets `GPIE` again; an invocation that does not service a falling
edge writes neither `d` nor `bitTime`, and one that does not service a rising
edge does not write `TMR0`.  So in every run from the state after
initialisation the serviced falling edges (writes of `bitTime` and `d`) and
the serviced rising edges (software writes of `TMR0`) number at most one
together; and if an invocation services a rising edge, it is the first
serviced edge and `d` is `DIR_ZERO` and `bitTime` is `ZERO_MID` in every later
state. -/
theorem edge_branch_runs_at_most_once (r : State) (es later : List Event)
    (i : Inputs) :
    (∀ (s : State) (j : Inputs), servicesEdge s j = true →
      (step s (Event.interrupt j)).GPIE = false) ∧
    (∀ (s : State) (e : Event), s.GPIE = false → (step s e).GPIE = false) ∧
    (∀ (s : State) (j : Inputs), servicesFalling s j = false →
      (step s (Event.interrupt j)).d = s.d ∧
      (step s (Event.interrupt j)).bitTime = s.bitTime) ∧
    (∀ (s : State) (j : Inputs), servicesRising s j = false →
      (step s (Event.interrupt j)).TMR0 = j.TMR0 % 256) ∧
    (∀ s : State, step s Event.loop = s) ∧
    (main_init (startup r)).GPIE = true ∧
    countServiced servicesFalling (main_init (startup r)) es
      + countServiced servicesRising (main_init (startup r)) es ≤ 1 ∧
    (servicesRising (run (main_init (startup r)) es) i = true →
      countServiced servicesEdge (main_init (startup r)) es = 0 ∧
      (run (main_init (startup r)) (es ++ Event.interrupt i :: later)).d = DIR_ZERO ∧
      (run (main_init (startup r)) (es ++ Event.interrupt i :: later)).bitTime
        = ZERO_MID) := by
  refine ⟨step_edge_clears_GPIE, fun s e h => (step_GPIE_off s e h).1,
    step_not_falling, step_not_rising, loop_body_id, rfl, ?_, ?_⟩
  · rw [countServiced_split]
    exact countServiced_edge_le_one es _
  · intro hR
    have hG : (run (main_init (startup r)) es).GPIE = true ∧ i.GPIF = true ∧
        i.SPEED_CMD = true := by
      simpa [servicesRising, and_assoc] using hR
    obtain ⟨hd, hb⟩ := run_enabled_untouched es (main_init (startup r))
      (fun _ => ⟨rfl, rfl⟩) hG.1
    have hcount : countServiced servicesEdge (main_init (startup r)) es = 0 := by
      by_contra hne
      have hle := countServiced_edge_le_one es (main_init (startup r))
      have hone : countServiced servicesEdge (main_init (startup r)) es = 1 := by
        omega
      exact absurd hG.1 (by
        have := count_pos_GPIE_off es (main_init (startup r)) (by omega)
        rw [this]; decide)
    have hE : servicesEdge (run (main_init (startup r)) es) i = true := by
      simp [servicesEdge, hG.1, hG.2.1]
    have hF : servicesFalling (run (main_init (startup r)) es) i = false := by
      simp [servicesFalling, hG.2.2]
    obtain ⟨hd1, hb1⟩ := step_not_falling _ i hF
    have hoff := step_edge_clears_GPIE _ i hE
    obtain ⟨_, hd2, hb2, _⟩ := run_GPIE_off later _ hoff
    have hrun : run (main_init (startup r)) (es ++ Event.interrupt i :: later)
        = run (step (run (main_init (startup r)) es) (Event.interrupt i)) later := by
      rw [run_append]; rfl
    rw [hrun, hd2, hb2, hd1, hb1]
    exact ⟨hcount, hd, hb⟩

theorem edge_branch_runs_at_most_once_witness :
    servicesRising (run (main_init (startup zeroState)) sampleBefore) sampleEdge = true ∧
    countServiced servicesFalling (main_init (startup zeroState))
        (sampleBefore ++ Event.interrupt sampleEdge :: sampleAfter)
      + countServiced servicesRising (main_init (startup zeroState))
        (sampleBefore ++ Event.interrupt sampleEdge :: sampleAfter) ≤ 1 ∧
    (run (main_init (startup zeroState))
      (sampleBefore ++ Event.interrupt sampleEdge :: sampleAfter)).d = DIR_ZERO ∧
    (run (main_init (startup zeroState))
      (sampleBefore ++ Event.interrupt sampleEdge :: sampleAfter)).bitTime = ZERO_MID :=
  ⟨by decide,
    (edge_branch_runs_at_most_once zeroState
      (sampleBefore ++ Event.interrupt sampleEdge :: sampleAfter) [] sampleEdge).2.2.2.2.2.2.1,
    ((edge_branch_runs_at_most_once zeroState sampleBefore sampleAfter
      sampleEdge).2.2.2.2.2.2.2 (by decide)).2⟩

/-- C14: what the code decides inside the documented neutral band.  With one
tick every 8 microseconds a pulse of 1500 microseconds (the 1.5 ms midpoint)
is captured as 187 and decided `DIR_CCW`, as is every pulse from 1481 to 1511
microseconds; the decision is `DIR_ZERO` only from 1512 microseconds on. -/
theorem midpoint_pulse_decided_ccw (s : State) :
    tickMicros = 8 ∧ capturedCount 1500 = 187 ∧
    (isr (fallingEdge s (capturedCount 1500))).d = DIR_CCW ∧
    (isr (fallingEdge s (capturedCount 1500))).d ≠ DIR_ZERO ∧
    (isr (fallingEdge s (capturedCount 1481))).d = DIR_CCW ∧
    (isr (fallingEdge s (capturedCount 1511))).d = DIR_CCW ∧
    (isr (fallingEdge s (capturedCount 1512))).d = DIR_ZERO := by
  have c1500 : capturedCount 1500 = 187 := by
    have h := capturedCount_bounds 1500 (by norm_num) (by norm_num)
    have a : (capturedCount 1500 : ℚ) < 188 := by linarith [h.2.1]
    have b : (186 : ℚ) < (capturedCount 1500 : ℚ) := by linarith [h.2.2]
    have a2 : capturedCount 1500 < 188 := by exact_mod_cast a
    have b2 : 186 < capturedCount 1500 := by exact_mod_cast b
    omega
  have c1481 : capturedCount 1481 = 185 := by
    have h := capturedCount_bounds 1481 (by norm_num) (by norm_num)
    have a : (capturedCount 1481 : ℚ) < 186 := by linarith [h.2.1]
    have b : (184 : ℚ) < (capturedCount 1481 : ℚ) := by linarith [h.2.2]
    have a2 : capturedCount 1481 < 186 := by exact_mod_cast a
    have b2 : 184 < capturedCount 1481 := by exact_mod_cast b
    omega
  have c1511 : capturedCount 1511 = 188 := by
    have h := capturedCount_bounds 1511 (by norm_num) (by norm_num)
    have a : (capturedCount 1511 : ℚ) < 189 := by linarith [h.2.1]
    have b : (187 : ℚ) < (capturedCount 1511 : ℚ) := by linarith [h.2.2]
    have a2 : capturedCount 1511 < 189 := by exact_mod_cast a
    have b2 : 187 < capturedCount 1511 := by exact_mod_cast b
    omega
  have c1512 : capturedCount 1512 = 189 := by
    have h := capturedCount_bounds 1512 (by norm_num) (by norm_num)
    have a : (capturedCount 1512 : ℚ) < 190 := by linarith [h.2.1]
    have b : (188 : ℚ) < (capturedCount 1512 : ℚ) := by linarith [h.2.2]
    have a2 : capturedCount 1512 < 190 := by exact_mod_cast a
    have b2 : 188 < capturedCount 1512 := by exact_mod_cast b
    omega
  rw [c1500, c1481, c1511, c1512]
  refine ⟨tickMicros_val, rfl, ?_, ?_, ?_, ?_, ?_⟩
  · rw [(isr_fallingEdge s 187).2]; decide
  · rw [(isr_fallingEdge s 187).2]; decide
  · rw [(isr_fallingEdge s 185).2]; decide
  · rw [(isr_fallingEdge s 188).2]; decide
  · rw [(isr_fallingEdge s 189).2]; decide

/-- C17: with one timer tick every 8 microseconds and captured count
`floor (t / 8)` for a pulse of `t` microseconds, for every `t` with
`0 ≤ t < 2048` the falling-edge decision is `DIR_CCW` exactly when `t < 1512`,
`DIR_ZERO` exactly when `1512 ≤ t < 1552`, and `DIR_CW` exactly when
`t ≥ 1552`; the nominal range 1000..2000 is captured as 125..250. -/
theorem decision_thresholds_in_microseconds (s : State) (t : ℚ) (h0 : 0 ≤ t)
    (h1 : t < 2048) :
    tickMicros = 8 ∧
    ((isr (fallingEdge s (capturedCount t))).d = DIR_CCW ↔ t < 1512) ∧
    ((isr (fallingEdge s (capturedCount t))).d = DIR_ZERO ↔ 1512 ≤ t ∧ t < 1552) ∧
    ((isr (fallingEdge s (capturedCount t))).d = DIR_CW ↔ 1552 ≤ t) ∧
    ((1000 ≤ t ∧ t ≤ 2000) → 125 ≤ capturedCount t ∧ capturedCount t ≤ 250) := by
  obtain ⟨hk, hlo, hhi⟩ := capturedCount_bounds t h0 h1
  rw [(isr_fallingEdge s (capturedCount t)).2, Nat.mod_eq_of_lt hk]
  generalize capturedCount t = k at hk hlo hhi
  have low_iff : k < 189 ↔ t < 1512 := by
    constructor
    · intro h
      have : (k : ℚ) + 1 ≤ 189 := by exact_mod_cast h
      linarith
    · intro h
      have : (k : ℚ) < 189 := by linarith
      exact_mod_cast this
  have high_iff : 193 < k ↔ 1552 ≤ t := by
    constructor
    · intro h
      have : (194 : ℚ) ≤ (k : ℚ) := by exact_mod_cast h
      linarith
    · intro h
      have : (193 : ℚ) < (k : ℚ) + 1 := by linarith
      have h2 : 193 < k + 1 := by exact_mod_cast this
      by_contra hc
      have hk193 : k = 193 := by omega
      rw [hk193] at hhi
      norm_num at hhi
      linarith
  obtain ⟨c1, c2, c3⟩ := classify_iff k
  refine ⟨tickMicros_val, c1.trans low_iff, ?_, c3.trans high_iff, ?_⟩
  · rw [c2, low_iff, high_iff, not_lt, not_le]
  · intro ⟨ha, hb⟩
    constructor
    · have : (124 : ℚ) < (k : ℚ) := by linarith
      exact_mod_cast this
    · have : (k : ℚ) < 251 := by linarith
      have h3 : k < 251 := by exact_mod_cast this
      omega

theorem decision_thresholds_in_microseconds_witness :
    tickMicros = 8 ∧
    ((isr (fallingEdge sampleA (capturedCount 1500))).d = DIR_CCW ↔ (1500 : ℚ) < 1512) ∧
    ((isr (fallingEdge sampleA (capturedCount 1500))).d = DIR_ZERO ↔
      1512 ≤ (1500 : ℚ) ∧ (1500 : ℚ) < 1552) ∧
    ((isr (fallingEdge sampleA (capturedCount 1500))).d = DIR_CW ↔ 1552 ≤ (1500 : ℚ)) ∧
    ((1000 ≤ (1500 : ℚ) ∧ (1500 : ℚ) ≤ 2000) →
      125 ≤ capturedCount 1500 ∧ capturedCount 1500 ≤ 250) :=
  decision_thresholds_in_microseconds sampleA 1500 (by norm_num) (by norm_num)

end MotorEsc
